import Mathlib

/-!
Shallow embedding of `certbot-apache/certbot_apache/_internal/apache_util.py`.

Python strings are modelled by Lean `String` (operating on code points via
`String.data`), Python byte strings by `List Nat` (each entry a byte value),
Python exceptions by explicit `Except`/`Option` results, and the external
world (filesystem existence, file hashing, child-process outcomes, the
current clock) by explicit oracle parameters.
-/

/-- Exceptions raised by the module, as values.  `pluginError` stands for
`certbot.errors.PluginError`, `misconfigurationError` for
`certbot.errors.MisconfigurationError`, and `ioError` for a Python `IOError`
escaping to the caller. -/
inductive PyErr where
  | pluginError (msg : String)
  | misconfigurationError (msg : String)
  | ioError (msg : String)
  deriving DecidableEq

instance exceptDecEq {ε α : Type} [DecidableEq ε] [DecidableEq α] :
    DecidableEq (Except ε α) := fun x y =>
  match x, y with
  | .ok a, .ok b =>
    if h : a = b then .isTrue (by rw [h]) else .isFalse (by simp [h])
  | .ok _, .error _ => .isFalse (by simp)
  | .error _, .ok _ => .isFalse (by simp)
  | .error e, .error f =>
    if h : e = f then .isTrue (by rw [h]) else .isFalse (by simp [h])

/-! Python string primitives used by the module, modelled on `String.data`. -/

/-- Python slicing `s[n:]`, by code point. -/
def strDrop (s : String) (n : Nat) : String := ⟨s.data.drop n⟩

/-- Boolean test that the first list is an initial segment of the second,
modelling Python `str.startswith` on code-point lists. -/
def listIsHeadOf : List Char → List Char → Bool
  | [], _ => true
  | _ :: _, [] => false
  | a :: as, b :: bs => a = b && listIsHeadOf as bs

/-- Python `s.startswith(pre)`. -/
def pyStartsWith (s pre : String) : Bool := listIsHeadOf pre.data s.data

/-- Whitespace characters recognised by Python `str.split()` with no
arguments. -/
def isPySpace (c : Char) : Bool :=
  c = ' ' || c = '\t' || c = '\n' || c = '\r' || c = '\x0b' || c = '\x0c'

/-- Helper for `pySplitWs`: the accumulator holds the current word reversed. -/
def splitWsAux : List Char → List Char → List String
  | [], cur => if cur = [] then [] else [⟨cur.reverse⟩]
  | c :: cs, cur =>
    if isPySpace c then
      if cur = [] then splitWsAux cs [] else ⟨cur.reverse⟩ :: splitWsAux cs []
    else splitWsAux cs (c :: cur)

/-- Python `s.split()`: split on runs of whitespace, no empty pieces. -/
def pySplitWs (s : String) : List String := splitWsAux s.data []

/-- Split a code-point list at the first occurrence of `sep`, if any,
for Python `str.partition`. -/
def partitionCharAux (sep : Char) : List Char → Option (List Char × List Char)
  | [] => none
  | c :: cs =>
    if c = sep then some ([], cs)
    else (partitionCharAux sep cs).map fun p => (c :: p.1, p.2)

/-- Python `s.partition("=")`, keeping pieces 0 and 2 (the text before and
after the first `=`); when there is no `=` the pair is `(s, "")`. -/
def partitionEq (s : String) : String × String :=
  match partitionCharAux '=' s.data with
  | some (h, t) => (⟨h⟩, ⟨t⟩)
  | none => (s, "")

/-- Split a code-point list at the last occurrence of `sep`, if any,
for Python `str.rpartition`. -/
def rpartitionCharAux (sep : Char) : List Char → Option (List Char × List Char)
  | [] => none
  | c :: cs =>
    match rpartitionCharAux sep cs with
    | some (h, t) => some (c :: h, t)
    | none => if c = sep then some ([], cs) else none

/-- Python `s.rpartition("/")`, keeping pieces 0 and 2 (the text before and
after the last slash); when there is no slash the pair is `("", s)`. -/
def rpartitionSlash (s : String) : String × String :=
  match rpartitionCharAux '/' s.data with
  | some (h, t) => (⟨h⟩, ⟨t⟩)
  | none => ("", s)

/-- Python `"/".join(l)`. -/
def joinSlash : List String → String
  | [] => ""
  | [c] => c
  | c :: cs => c ++ "/" ++ joinSlash cs

/-! Component `_split_aug_path` / `get_file_path` / `get_internal_aug_path`. -/

/-- The prefix-shrinking loop of `_split_aug_path`
(`while not os.path.exists(file_path): file_path, _, part = file_path.rpartition("/")`).
`ex` is the filesystem existence oracle `os.path.exists`.  The loop has no
bound in the source; `fuel` bounds the number of iterations of this model,
and `none` means the loop did not finish within `fuel` iterations.  The
accumulator collects removed components most-recently-removed first, which
is the order `reversed(internal_path)` produces. -/
def splitAugLoop (ex : String → Bool) : Nat → String → List String → Option (String × List String)
  | 0, _, _ => none
  | fuel + 1, fp, acc =>
    if ex fp then some (fp, acc)
    else
      let p := rpartitionSlash fp
      splitAugLoop ex fuel p.1 (p.2 :: acc)

/-- `_split_aug_path(vhost_path)`: strip the 6-character marker `"/files"`,
then shrink until an existing path is found; the removed components, joined
with `"/"`, form the internal path. -/
def split_aug_path (ex : String → Bool) (fuel : Nat) (vhost_path : String) :
    Option (String × String) :=
  (splitAugLoop ex fuel (strDrop vhost_path 6) []).map fun pr => (pr.1, joinSlash pr.2)

/-- `get_file_path(vhost_path)`: `some none` models returning Python `None`
for an empty path or one not starting with `"/files/"`; otherwise the file
component of the split (outer `none` meaning the unbounded loop did not
finish within `fuel`). -/
def get_file_path (ex : String → Bool) (fuel : Nat) (vhost_path : String) :
    Option (Option String) :=
  if vhost_path = "" ∨ pyStartsWith vhost_path "/files/" = false then some none
  else (split_aug_path ex fuel vhost_path).map fun pr => some pr.1

/-- `get_internal_aug_path(vhost_path)`: the internal component of the split,
with no marker check of its own. -/
def get_internal_aug_path (ex : String → Bool) (fuel : Nat) (vhost_path : String) :
    Option String :=
  (split_aug_path ex fuel vhost_path).map fun pr => pr.2

/-! Component `parse_defines` (variable extraction from `DUMP_RUN_CFG`). -/

/-- Insertion into a Python `dict` viewed as an ordered association list:
an existing key keeps its position and gets the new value, a new key is
appended. -/
def insertVar : List (String × String) → String → String → List (String × String)
  | [], k, v => [(k, v)]
  | (k', v') :: rest, k, v =>
    if k' = k then (k', v) :: rest else (k', v') :: insertVar rest k v

/-- The `for match in matches` loop body of `parse_defines`: raise
`PluginError` on a token with more than one `=`, otherwise split on the
first `=` and store name/value. -/
def parseDefinesLoop : List String → List (String × String) → Except PyErr (List (String × String))
  | [], acc => .ok acc
  | t :: rest, acc =>
    if 1 < t.data.count '=' then
      .error (.pluginError "Error parsing Apache runtime variables")
    else
      parseDefinesLoop rest (insertVar acc (partitionEq t).1 (partitionEq t).2)

/-- `parse_defines(apachectl)` from the point where the scanned match list
is available: `matches.remove("DUMP_RUN_CFG")` removes the first occurrence
and its `ValueError` (sentinel absent) is answered with an empty dict. -/
def parse_defines (ms : List String) : Except PyErr (List (String × String)) :=
  if "DUMP_RUN_CFG" ∈ ms then
    parseDefinesLoop (ms.erase "DUMP_RUN_CFG") []
  else
    .ok []

/-! Component `parse_define_file`. -/

/-- The `for i, v in enumerate(a_opts)` loop of `parse_define_file`: a token
exactly `-D` consumes the next token (which is still visited on its own
turn), a longer token starting with `-D` carries its argument inline. -/
def parseDefineFileLoop : List String → List (String × String) → List (String × String)
  | [], acc => acc
  | v :: rest, acc =>
    if v = "-D" then
      match rest with
      | [] => acc
      | w :: rest' =>
        parseDefineFileLoop (w :: rest')
          (insertVar acc (partitionEq w).1 (partitionEq w).2)
    else if 2 < v.data.length ∧ pyStartsWith v "-D" = true then
      parseDefineFileLoop rest
        (insertVar acc (partitionEq (strDrop v 2)).1 (partitionEq (strDrop v 2)).2)
    else
      parseDefineFileLoop rest acc

/-- `parse_define_file(filepath, varname)`, parametrised by the raw value
the external collaborator `util.get_var_from_file` returns for the
variable. -/
def parse_define_file (value : String) : List (String × String) :=
  parseDefineFileLoop (pySplitWs value) []

/-! Component `safe_copy` / `_file_hash`. -/

/-- Outcomes the outside world supplies for one iteration of the copy loop:
whether `shutil.copy2` raises `IOError` (carrying its message), and whether
`_file_hash` on the source and on the target raises `IOError` or yields a
hash string. -/
structure AttemptEnv where
  copy : Except String Unit
  sourceHash : Except String String
  targetHash : Except String String

/-- The `for _ in range(3)` loop of `safe_copy`, over the per-iteration
outcomes, also counting the iterations performed: a copy `IOError` turns
into an immediate `PluginError`, a hash `IOError` is `continue`, equal
hashes return, and an exhausted list is the final integrity `PluginError`. -/
def safeCopyLoop (source target : String) : List AttemptEnv → Except PyErr Unit × Nat
  | [] => (.error (.pluginError "Safe copy failed. The file integrity does not match"), 0)
  | a :: rest =>
    match a.copy with
    | .error e =>
      (.error (.pluginError ("Could not copy " ++ source ++ " to " ++ target ++ ": " ++ e)), 1)
    | .ok _ =>
      match a.sourceHash with
      | .error _ =>
        ((safeCopyLoop source target rest).1, (safeCopyLoop source target rest).2 + 1)
      | .ok source_hash =>
        match a.targetHash with
        | .error _ =>
          ((safeCopyLoop source target rest).1, (safeCopyLoop source target rest).2 + 1)
        | .ok target_hash =>
          if source_hash = target_hash then (.ok (), 1)
          else ((safeCopyLoop source target rest).1, (safeCopyLoop source target rest).2 + 1)

/-- `safe_copy(source, target)` under the outcome oracle `env` (attempt `i`
of the loop sees `env i`); the second component is the number of attempts
performed. -/
def safe_copy (source target : String) (env : Nat → AttemptEnv) : Except PyErr Unit × Nat :=
  safeCopyLoop source target [env 0, env 1, env 2]

/-! Component `get_apache_ocsp_struct`. -/

/-- Little-endian base-256 digits of `u`, `w` bytes wide. -/
def leBytes : Nat → Nat → List Nat
  | 0, _ => []
  | w + 1, u => u % 256 :: leBytes w (u / 256)

/-- `struct.pack('l', x)` on the 64-bit platform the module runs on: 8
bytes, native (little) byte order, signed; `none` models the `struct.error`
raised when `x` is out of range for a signed long. -/
def structPackL (x : Int) : Option (List Nat) :=
  if x < -(2 ^ 63) ∨ 2 ^ 63 ≤ x then none
  else some (leBytes 8 (x % (2 : Int) ^ 64).toNat)

/-- Python `int(q)` for a real value modelled as a rational: truncation
toward zero. -/
def pyIntOfRat (q : ℚ) : Int := if 0 ≤ q then ⌊q⌋ else -⌊-q⌋

/-- `get_apache_ocsp_struct(ttl, ocsp_response)`, with `now` standing for
`time.time()`: `ttl = time.time() + ttl`, packed as microseconds, then
`b'\x01'.join([ttl_struct, ocsp_response])`. -/
def get_apache_ocsp_struct (now : ℚ) (ttl : Int) (ocsp_response : List Nat) :
    Option (List Nat) :=
  (structPackL (pyIntOfRat ((now + (ttl : ℚ)) * 1000000))).map
    fun ttl_struct => ttl_struct ++ 0x01 :: ocsp_response

/-! Component `_get_runtime_cfg`. -/

/-- Outcome of `subprocess.Popen` + `communicate`: either the spawn itself
raises (`OSError`/`ValueError`), or the process exits with a return code,
captured stdout and captured stderr. -/
inductive ProcResult where
  | spawnFailure
  | exited (returncode : Int) (stdout stderr : String)

/-- `_get_runtime_cfg(command)` under the process outcome `proc`; `command`
is the formatted command text interpolated into the spawn-failure message. -/
def get_runtime_cfg (command : String) (proc : ProcResult) : Except PyErr String :=
  match proc with
  | .spawnFailure =>
    .error (.misconfigurationError ("Error accessing loaded Apache parameters: " ++ command))
  | .exited rc stdout _stderr =>
    if rc ≠ 0 then
      .error (.misconfigurationError
        "Apache is unable to check whether or not the module is loaded because Apache is misconfigured.")
    else
      .ok stdout

/-! Derived predicates used to state the properties. -/

/-- One of the two `_file_hash` calls of an attempt raises `IOError`. -/
def hashFailed (a : AttemptEnv) : Prop :=
  (∃ e, a.sourceHash = .error e) ∨ (∃ e, a.targetHash = .error e)

/-- An attempt the `safe_copy` loop retries: the copy succeeds and either a
hash computation raises `IOError` or the two hashes disagree. -/
def retryable (a : AttemptEnv) : Prop :=
  a.copy = .ok () ∧
    (hashFailed a ∨ ∃ sh th, a.sourceHash = .ok sh ∧ a.targetHash = .ok th ∧ sh ≠ th)

/-- One shrink of the loop of `_split_aug_path`: the part of the path before
its last slash (empty when there is no slash), exactly
`file_path.rpartition("/")[0]`. -/
def shrinkStep (s : String) : String := (rpartitionSlash s).1

/-- The path `P ++ "/" ++ c1 ++ "/" ++ ... ++ "/" ++ ck` obtained by
appending the components `[c1, ..., ck]` below `P`. -/
def joinPath (P : String) : List String → String
  | [] => P
  | c :: cs => joinPath (P ++ "/" ++ c) cs

/-- Occurrence of `pat` as a contiguous subsequence, for Python `sub in s`. -/
def containsSeq (pat : List Char) : List Char → Bool
  | [] => listIsHeadOf pat []
  | c :: cs => listIsHeadOf pat (c :: cs) || containsSeq pat cs

/-- Python `sub in s` on strings. -/
def pyContains (s sub : String) : Bool := containsSeq sub.data s.data

/-! Theorems about `safe_copy`. -/

theorem safeCopyLoop_copy_err (s t : String) (a : AttemptEnv) (rest : List AttemptEnv)
    (m : String) (h : a.copy = .error m) :
    safeCopyLoop s t (a :: rest) =
      (.error (.pluginError ("Could not copy " ++ s ++ " to " ++ t ++ ": " ++ m)), 1) := by
  simp [safeCopyLoop, h]

theorem safeCopyLoop_retry (s t : String) (a : AttemptEnv) (rest : List AttemptEnv)
    (h : retryable a) :
    safeCopyLoop s t (a :: rest) =
      ((safeCopyLoop s t rest).1, (safeCopyLoop s t rest).2 + 1) := by
  obtain ⟨hc, hrest⟩ := h
  rcases hrest with (⟨e, he⟩ | ⟨e, he⟩) | ⟨sh, th, hs, ht, hne⟩
  · simp [safeCopyLoop, hc, he]
  · cases hsrc : a.sourceHash with
    | error e2 => simp [safeCopyLoop, hc, hsrc]
    | ok sh => simp [safeCopyLoop, hc, hsrc, he]
  · simp [safeCopyLoop, hc, hs, ht, hne]

theorem safeCopyLoop_no_ioError (s t m : String) :
    ∀ l : List AttemptEnv, (safeCopyLoop s t l).1 ≠ .error (.ioError m)
  | [] => by simp [safeCopyLoop]
  | a :: rest => by
    have ih := safeCopyLoop_no_ioError s t m rest
    cases hc : a.copy with
    | error e => simp [safeCopyLoop, hc]
    | ok u =>
      cases hs : a.sourceHash with
      | error e => simpa [safeCopyLoop, hc, hs] using ih
      | ok sh =>
        cases ht : a.targetHash with
        | error e => simpa [safeCopyLoop, hc, hs, ht] using ih
        | ok th =>
          by_cases he : sh = th
          · simp [safeCopyLoop, hc, hs, ht, he]
          · simpa [safeCopyLoop, hc, hs, ht, he] using ih

/-- C2: when every one of the three verification rounds computes hashes that
differ (the target never converges to the source content) and no I/O error
occurs, `safe_copy` performs exactly 3 copy-and-verify attempts and then
fails with the integrity-mismatch `PluginError`; it neither retries a fourth
time nor returns success. -/
theorem c2_safe_copy_three_attempts (source target : String) (env : Nat → AttemptEnv)
    (h : ∀ i, i < 3 → (env i).copy = .ok () ∧
      ∃ sh th, (env i).sourceHash = .ok sh ∧ (env i).targetHash = .ok th ∧ sh ≠ th) :
    safe_copy source target env =
      (.error (.pluginError "Safe copy failed. The file integrity does not match"), 3) := by
  have h0 := h 0 (by omega)
  have h1 := h 1 (by omega)
  have h2 := h 2 (by omega)
  unfold safe_copy
  rw [safeCopyLoop_retry _ _ _ _ ⟨h0.1, Or.inr h0.2⟩,
      safeCopyLoop_retry _ _ _ _ ⟨h1.1, Or.inr h1.2⟩,
      safeCopyLoop_retry _ _ _ _ ⟨h2.1, Or.inr h2.2⟩]
  simp [safeCopyLoop]

theorem c2_witness :
    safe_copy "src" "tgt" (fun _ => ⟨.ok (), .ok "a", .ok "b"⟩) =
      (.error (.pluginError "Safe copy failed. The file integrity does not match"), 3) :=
  c2_safe_copy_three_attempts "src" "tgt" _
    (fun _ _ => ⟨rfl, "a", "b", rfl, rfl, by decide⟩)

/-- C4: in `safe_copy`, an `IOError` from the copy step fails immediately on
that same attempt with the copy `PluginError` (no retry), while an `IOError`
from hashing is retried within the same 3-attempt budget and such an error
is never surfaced to the caller. -/
theorem c4_copy_fatal_hash_retried :
    (∀ (s t : String) (env : Nat → AttemptEnv) (i : Nat) (m : String), i < 3 →
      (∀ j, j < i → retryable (env j)) → (env i).copy = .error m →
      safe_copy s t env =
        (.error (.pluginError ("Could not copy " ++ s ++ " to " ++ t ++ ": " ++ m)), i + 1)) ∧
    (∀ (s t : String) (env : Nat → AttemptEnv),
      (∀ i, i < 3 → (env i).copy = .ok () ∧ hashFailed (env i)) →
      safe_copy s t env =
        (.error (.pluginError "Safe copy failed. The file integrity does not match"), 3)) ∧
    (∀ (s t : String) (env : Nat → AttemptEnv) (m : String),
      (safe_copy s t env).1 ≠ .error (.ioError m)) := by
  refine ⟨?_, ?_, ?_⟩
  · intro s t env i m hi hprev hcopy
    interval_cases i
    · unfold safe_copy
      rw [safeCopyLoop_copy_err _ _ _ _ _ hcopy]
    · unfold safe_copy
      rw [safeCopyLoop_retry _ _ _ _ (hprev 0 (by omega)),
          safeCopyLoop_copy_err _ _ _ _ _ hcopy]
    · unfold safe_copy
      rw [safeCopyLoop_retry _ _ _ _ (hprev 0 (by omega)),
          safeCopyLoop_retry _ _ _ _ (hprev 1 (by omega)),
          safeCopyLoop_copy_err _ _ _ _ _ hcopy]
  · intro s t env h
    have h0 := h 0 (by omega)
    have h1 := h 1 (by omega)
    have h2 := h 2 (by omega)
    unfold safe_copy
    rw [safeCopyLoop_retry _ _ _ _ ⟨h0.1, Or.inl h0.2⟩,
        safeCopyLoop_retry _ _ _ _ ⟨h1.1, Or.inl h1.2⟩,
        safeCopyLoop_retry _ _ _ _ ⟨h2.1, Or.inl h2.2⟩]
    simp [safeCopyLoop]
  · intro s t env m
    exact safeCopyLoop_no_ioError s t m _

theorem c4_witness :
    safe_copy "s" "t" (fun _ => ⟨.error "disk full", .ok "a", .ok "a"⟩) =
      (.error (.pluginError ("Could not copy " ++ "s" ++ " to " ++ "t" ++ ": " ++ "disk full")), 1) ∧
    safe_copy "s" "t" (fun _ => ⟨.ok (), .error "unreadable", .ok "a"⟩) =
      (.error (.pluginError "Safe copy failed. The file integrity does not match"), 3) ∧
    (safe_copy "s" "t" (fun _ => ⟨.ok (), .error "unreadable", .ok "a"⟩)).1 ≠
      .error (.ioError "unreadable") :=
  ⟨c4_copy_fatal_hash_retried.1 "s" "t" _ 0 "disk full" (by omega)
      (fun j hj => absurd hj (by omega)) rfl,
   c4_copy_fatal_hash_retried.2.1 "s" "t" _
      (fun _ _ => ⟨rfl, Or.inl ⟨"unreadable", rfl⟩⟩),
   c4_copy_fatal_hash_retried.2.2 "s" "t" _ "unreadable"⟩

/-! Theorems about `_get_runtime_cfg`. -/

/-- C3 counterexample: on exit status 2 with captured stderr
`"syntax error on line 5"`, `_get_runtime_cfg` raises
`MisconfigurationError` with a fixed message, and that message does not
contain the captured stderr text, contrary to the claim. -/
theorem c3_counterexample :
    get_runtime_cfg "apachectl -t -D DUMP_RUN_CFG"
        (.exited 2 "" "syntax error on line 5") =
      .error (.misconfigurationError
        "Apache is unable to check whether or not the module is loaded because Apache is misconfigured.") ∧
    pyContains
      "Apache is unable to check whether or not the module is loaded because Apache is misconfigured."
      "syntax error on line 5" = false := by
  constructor
  · rfl
  · decide

/-- C3 amended: when the invoked command exits with non-zero status,
`_get_runtime_cfg` raises `MisconfigurationError`, but its message is the
fixed text "Apache is unable to check whether or not the module is loaded
because Apache is misconfigured." and does not include the captured stderr
(which is only written to the warning log). -/
theorem c3_nonzero_exit_fixed_message (command : String) (rc : Int)
    (out errText : String) (h : rc ≠ 0) :
    get_runtime_cfg command (.exited rc out errText) =
      .error (.misconfigurationError
        "Apache is unable to check whether or not the module is loaded because Apache is misconfigured.") := by
  simp [get_runtime_cfg, h]

theorem c3_nonzero_exit_fixed_message_witness :
    get_runtime_cfg "apachectl -t -D DUMP_RUN_CFG" (.exited 2 "" "boom") =
      .error (.misconfigurationError
        "Apache is unable to check whether or not the module is loaded because Apache is misconfigured.") :=
  c3_nonzero_exit_fixed_message "apachectl -t -D DUMP_RUN_CFG" 2 "" "boom" (by decide)

/-! Theorems about `parse_defines`. -/

theorem parseDefinesLoop_err (ts : List String) (acc : List (String × String))
    (h : ∃ t ∈ ts, 1 < t.data.count '=') :
    parseDefinesLoop ts acc =
      .error (.pluginError "Error parsing Apache runtime variables") := by
  induction ts generalizing acc with
  | nil => obtain ⟨t, ht, _⟩ := h; cases ht
  | cons t rest ih =>
    by_cases hc : 1 < t.data.count '='
    · simp [parseDefinesLoop, hc]
    · obtain ⟨u, hu, hcu⟩ := h
      rcases List.mem_cons.mp hu with rfl | hu
      · exact absurd hcu hc
      · simp only [parseDefinesLoop, if_neg hc]
        exact ih _ ⟨u, hu, hcu⟩

theorem parseDefinesLoop_ok (ts : List String) (acc : List (String × String))
    (h : ∀ t ∈ ts, t.data.count '=' ≤ 1) :
    parseDefinesLoop ts acc =
      .ok (ts.foldl (fun m t => insertVar m (partitionEq t).1 (partitionEq t).2) acc) := by
  induction ts generalizing acc with
  | nil => simp [parseDefinesLoop]
  | cons t rest ih =>
    have hc : ¬ 1 < t.data.count '=' := by
      have := h t (by simp)
      omega
    simp only [parseDefinesLoop, if_neg hc, List.foldl_cons]
    exact ih _ (fun u hu => h u (by simp [hu]))

/-- C5: `parse_defines` removes exactly one (the first) occurrence of the
sentinel token `DUMP_RUN_CFG` from the match list before building the
variable map; if the sentinel is absent it returns an empty map without
raising; a second sentinel occurrence is kept and parsed as an ordinary
token. -/
theorem c5_sentinel_removal (ms : List String) :
    ("DUMP_RUN_CFG" ∉ ms → parse_defines ms = .ok []) ∧
    ("DUMP_RUN_CFG" ∈ ms →
      parse_defines ms = parseDefinesLoop (ms.erase "DUMP_RUN_CFG") []) ∧
    parse_defines ["DUMP_RUN_CFG", "DUMP_RUN_CFG"] = .ok [("DUMP_RUN_CFG", "")] := by
  refine ⟨fun h => ?_, fun h => ?_, by decide⟩
  · simp [parse_defines, h]
  · simp [parse_defines, h]

theorem c5_witness :
    parse_defines ["FOO=bar"] = .ok [] ∧
    parse_defines ["DUMP_RUN_CFG", "FOO=bar"] =
      parseDefinesLoop (["DUMP_RUN_CFG", "FOO=bar"].erase "DUMP_RUN_CFG") [] :=
  ⟨(c5_sentinel_removal ["FOO=bar"]).1 (by decide),
   (c5_sentinel_removal ["DUMP_RUN_CFG", "FOO=bar"]).2.1 (by decide)⟩

/-- C6: after sentinel removal, `parse_defines` fails with the ambiguous
define `PluginError` whenever some remaining token contains more than one
`=`; when every remaining token has at most one `=`, each token is split on
its first `=` into name and (possibly empty) value. -/
theorem c6_ambiguous_define (ms : List String) (hmem : "DUMP_RUN_CFG" ∈ ms) :
    ((∃ t ∈ ms.erase "DUMP_RUN_CFG", 1 < t.data.count '=') →
      parse_defines ms =
        .error (.pluginError "Error parsing Apache runtime variables")) ∧
    ((∀ t ∈ ms.erase "DUMP_RUN_CFG", t.data.count '=' ≤ 1) →
      parse_defines ms = .ok ((ms.erase "DUMP_RUN_CFG").foldl
        (fun m t => insertVar m (partitionEq t).1 (partitionEq t).2) [])) := by
  constructor
  · intro h
    simp only [parse_defines, if_pos hmem]
    exact parseDefinesLoop_err _ _ h
  · intro h
    simp only [parse_defines, if_pos hmem]
    exact parseDefinesLoop_ok _ _ h

theorem c6_witness :
    parse_defines ["DUMP_RUN_CFG", "A=B=C"] =
      .error (.pluginError "Error parsing Apache runtime variables") ∧
    parse_defines ["DUMP_RUN_CFG", "FOO=bar", "BAZ"] = .ok [("FOO", "bar"), ("BAZ", "")] := by
  constructor
  · exact (c6_ambiguous_define ["DUMP_RUN_CFG", "A=B=C"] (by decide)).1
      ⟨"A=B=C", by decide, by decide⟩
  · have h := (c6_ambiguous_define ["DUMP_RUN_CFG", "FOO=bar", "BAZ"] (by decide)).2
      (by decide)
    rw [h]
    decide

/-! Theorems about `parse_define_file`. -/

/-- C7: `parse_define_file` splits the raw value on whitespace, handles the
detached form (`-D` followed by `NAME[=VALUE]`) and the inline form
(`-DNAME[=VALUE]`), defaults a missing value to the empty string, and later
tokens overwrite earlier ones with the same name; on
`"-D FOO=1 -DBAR=2 -D BAZ"` it returns `{FOO: "1", BAR: "2", BAZ: ""}`. -/
theorem c7_parse_define_file :
    parse_define_file "-D FOO=1 -DBAR=2 -D BAZ" =
      [("FOO", "1"), ("BAR", "2"), ("BAZ", "")] ∧
    parse_define_file "-DX=1 -D X=2" = [("X", "2")] ∧
    ∀ (m : List (String × String)) (k v : String),
      (insertVar m k v).lookup k = some v := by
  refine ⟨by decide, by decide, ?_⟩
  intro m k v
  induction m with
  | nil => simp [insertVar]
  | cons p rest ih =>
    obtain ⟨a, b⟩ := p
    by_cases h : a = k
    · subst h
      simp [insertVar]
    · simp only [insertVar, if_neg h, List.lookup]
      have hba : (k == a) = false := by simp [Ne.symm h]
      rw [hba]
      exact ih

/-! Theorems about the public path interface. -/

theorem strDrop_append_six (p vp : String) (h : p.data.length = 6) :
    strDrop (p ++ vp) 6 = vp := by
  unfold strDrop
  rw [String.data_append, ← h, List.drop_left]

/-- C10: `get_file_path` answers `None` for an empty input or one not
starting with the marker `"/files/"`, for every filesystem oracle and fuel
(so without any split or probe); `get_internal_aug_path` has no marker check
and unconditionally strips the first 6 characters before splitting, so its
result does not depend on what those 6 characters are. -/
theorem c10_interface_edges :
    (∀ (ex : String → Bool) (fuel : Nat) (vp : String),
      vp = "" ∨ pyStartsWith vp "/files/" = false →
      get_file_path ex fuel vp = some none) ∧
    (∀ (ex : String → Bool) (fuel : Nat) (p q vp : String),
      p.data.length = 6 → q.data.length = 6 →
      get_internal_aug_path ex fuel (p ++ vp) = get_internal_aug_path ex fuel (q ++ vp)) := by
  constructor
  · intro ex fuel vp h
    unfold get_file_path
    rw [if_pos h]
  · intro ex fuel p q vp hp hq
    unfold get_internal_aug_path split_aug_path
    rw [strDrop_append_six _ _ hp, strDrop_append_six _ _ hq]

theorem c10_witness :
    get_file_path (fun _ => true) 3 "/tmp/x" = some none ∧
    get_file_path (fun _ => true) 3 "" = some none ∧
    get_internal_aug_path (fun s => s = "a") 5 ("XXXXXX" ++ "/a/c") =
      get_internal_aug_path (fun s => s = "a") 5 ("/files" ++ "/a/c") :=
  ⟨c10_interface_edges.1 _ 3 _ (Or.inr (by decide)),
   c10_interface_edges.1 _ 3 _ (Or.inl rfl),
   c10_interface_edges.2 _ 5 "XXXXXX" "/files" "/a/c" (by decide) (by decide)⟩

/-! Theorems about `get_apache_ocsp_struct`. -/

theorem leBytes_length (w : Nat) : ∀ u : Nat, (leBytes w u).length = w := by
  induction w with
  | zero => intro u; rfl
  | succ w ih => intro u; simp [leBytes, ih]

/-- C8: for every clock value, ttl and response, when the expiry in
microseconds is in signed-long range, the encoded OCSP cache record is
exactly the 8-byte packed expiry followed by the single byte `0x01` followed
by the response bytes unmodified; hence its length is `8 + 1 + len(response)`
and the byte at offset 8 is `0x01`. -/
theorem c8_ocsp_record (now : ℚ) (ttl : Int) (resp : List Nat)
    (h1 : -(2 ^ 63) ≤ pyIntOfRat ((now + (ttl : ℚ)) * 1000000))
    (h2 : pyIntOfRat ((now + (ttl : ℚ)) * 1000000) < 2 ^ 63) :
    ∃ eb, structPackL (pyIntOfRat ((now + (ttl : ℚ)) * 1000000)) = some eb ∧
      eb.length = 8 ∧
      get_apache_ocsp_struct now ttl resp = some (eb ++ 0x01 :: resp) ∧
      (eb ++ 0x01 :: resp).length = 8 + 1 + resp.length ∧
      (eb ++ 0x01 :: resp)[8]? = some 0x01 := by
  have hpack : structPackL (pyIntOfRat ((now + (ttl : ℚ)) * 1000000)) =
      some (leBytes 8 ((pyIntOfRat ((now + (ttl : ℚ)) * 1000000)) % (2 : ℤ) ^ 64).toNat) := by
    unfold structPackL
    rw [if_neg]
    rintro (hlt | hle)
    · exact absurd h1 (not_le.mpr hlt)
    · exact absurd h2 (not_lt.mpr hle)
  refine ⟨_, hpack, leBytes_length 8 _, ?_, ?_, ?_⟩
  · unfold get_apache_ocsp_struct
    rw [hpack]
    rfl
  · rw [List.length_append, leBytes_length, List.length_cons]
    omega
  · rw [List.getElem?_append_right (by rw [leBytes_length])]
    rw [leBytes_length]
    simp

theorem c8_witness :
    ∃ eb, structPackL (pyIntOfRat (((1000 : ℚ) + ((60 : ℤ) : ℚ)) * 1000000)) = some eb ∧
      eb.length = 8 ∧
      get_apache_ocsp_struct 1000 60 [120, 121, 122] = some (eb ++ 0x01 :: [120, 121, 122]) ∧
      (eb ++ 0x01 :: [120, 121, 122]).length = 8 + 1 + ([120, 121, 122] : List Nat).length ∧
      (eb ++ 0x01 :: [120, 121, 122])[8]? = some 0x01 :=
  c8_ocsp_record 1000 60 [120, 121, 122] (by norm_num [pyIntOfRat])
    (by norm_num [pyIntOfRat])

/-! Theorems about the `_split_aug_path` shrinking loop itself. -/

theorem splitAugLoop_none_of_no_exist (ex : String → Bool) :
    ∀ (fuel : Nat) (p : String) (acc : List String),
      (∀ n, ex (shrinkStep^[n] p) = false) → splitAugLoop ex fuel p acc = none := by
  intro fuel
  induction fuel with
  | zero => intro p acc _; rfl
  | succ fuel ih =>
    intro p acc h
    have h0 : ex p = false := h 0
    simp only [splitAugLoop, h0, Bool.false_eq_true, if_false]
    exact ih _ _ (fun n => by
      have hn := h (n + 1)
      rwa [Function.iterate_succ_apply] at hn)

theorem splitAugLoop_some_of_exist (ex : String → Bool) :
    ∀ (n : Nat) (p : String) (acc : List String), ex (shrinkStep^[n] p) = true →
      (splitAugLoop ex (n + 1) p acc).isSome = true := by
  intro n
  induction n with
  | zero =>
    intro p acc h
    simp only [Function.iterate_zero, id_eq] at h
    simp [splitAugLoop, h]
  | succ n ih =>
    intro p acc h
    by_cases h0 : ex p = true
    · simp [splitAugLoop, h0]
    · have h0f : ex p = false := by simpa using h0
      simp only [splitAugLoop, h0f, Bool.false_eq_true, if_false]
      exact ih _ _ (by rwa [Function.iterate_succ_apply] at h)

/-- C9: the prefix-shrinking loop of `_split_aug_path` has no explicit
bound: it finishes within some number of iterations exactly when some
iterated shrink of the input (a prefix obtained by repeatedly removing the
last slash-delimited component) exists on the filesystem, and for every
input where no such prefix exists it does not finish for any number of
iterations. -/
theorem c9_loop_termination (ex : String → Bool) (p : String) :
    ((∃ n, ex (shrinkStep^[n] p) = true) →
      ∃ fuel, (splitAugLoop ex fuel p []).isSome = true) ∧
    ((∀ n, ex (shrinkStep^[n] p) = false) →
      ∀ fuel, splitAugLoop ex fuel p [] = none) := by
  constructor
  · rintro ⟨n, hn⟩
    exact ⟨n + 1, splitAugLoop_some_of_exist ex n p [] hn⟩
  · intro h fuel
    exact splitAugLoop_none_of_no_exist ex fuel p [] h

theorem c9_witness :
    (∃ fuel, (splitAugLoop (fun s => s = "/etc") fuel "/etc/a" []).isSome = true) ∧
    splitAugLoop (fun _ => false) 7 "a/b" [] = none :=
  ⟨(c9_loop_termination _ "/etc/a").1 ⟨1, by decide⟩,
   (c9_loop_termination _ "a/b").2 (fun _ => rfl) 7⟩

/-! Theorems about the `_split_aug_path` round trip. -/

theorem strAppend_assoc (a b c : String) : a ++ b ++ c = a ++ (b ++ c) := by
  apply String.ext
  simp [String.data_append, List.append_assoc]

theorem joinPath_append_last (c : String) : ∀ (cs : List String) (P : String),
    joinPath P (cs ++ [c]) = joinPath P cs ++ "/" ++ c := by
  intro cs
  induction cs with
  | nil => intro P; rfl
  | cons d cs ih => intro P; simpa [joinPath] using ih (P ++ "/" ++ d)

theorem joinPath_joinSlash : ∀ (cs : List String), cs ≠ [] → ∀ P : String,
    joinPath P cs = P ++ "/" ++ joinSlash cs
  | [], h, _ => absurd rfl h
  | [_], _, _ => rfl
  | c :: d :: cs, _, P => by
    have ih := joinPath_joinSlash (d :: cs) (by simp) (P ++ "/" ++ c)
    show joinPath (P ++ "/" ++ c) (d :: cs) = P ++ "/" ++ (c ++ "/" ++ joinSlash (d :: cs))
    rw [ih]
    simp [strAppend_assoc]

theorem rpartitionCharAux_none (sep : Char) :
    ∀ t : List Char, sep ∉ t → rpartitionCharAux sep t = none := by
  intro t
  induction t with
  | nil => intro _; rfl
  | cons c cs ih =>
    intro h
    have hc : ¬ c = sep := fun hcs => h (hcs ▸ List.mem_cons_self c cs)
    have hcs : sep ∉ cs := fun hm => h (List.mem_cons_of_mem c hm)
    simp [rpartitionCharAux, ih hcs, hc]

theorem rpartitionCharAux_last (sep : Char) (t : List Char) (ht : sep ∉ t) :
    ∀ h : List Char, rpartitionCharAux sep (h ++ sep :: t) = some (h, t) := by
  intro h
  induction h with
  | nil => simp [rpartitionCharAux, rpartitionCharAux_none sep t ht]
  | cons c h ih => simp [rpartitionCharAux, ih]

theorem rpartitionSlash_append (P c : String) (hc : '/' ∉ c.data) :
    rpartitionSlash (P ++ "/" ++ c) = (P, c) := by
  unfold rpartitionSlash
  have hdata : (P ++ "/" ++ c).data = P.data ++ '/' :: c.data := by
    rw [String.data_append, String.data_append, List.append_assoc]
    rfl
  rw [hdata, rpartitionCharAux_last '/' c.data hc P.data]

theorem splitAugLoop_joinPath (ex : String → Bool) (P : String) (hP : ex P = true) :
    ∀ (cs : List String) (acc : List String) (fuel : Nat), cs.length < fuel →
      (∀ c ∈ cs, '/' ∉ c.data) →
      (∀ j, 1 ≤ j → j ≤ cs.length → ex (joinPath P (cs.take j)) = false) →
      splitAugLoop ex fuel (joinPath P cs) acc = some (P, cs ++ acc) := by
  intro cs
  induction cs using List.reverseRecOn with
  | nil =>
    intro acc fuel hfuel _ _
    cases fuel with
    | zero => omega
    | succ fuel => simp [splitAugLoop, joinPath, hP]
  | append_singleton cs c ih =>
    intro acc fuel hfuel hsl hex
    cases fuel with
    | zero => simp at hfuel
    | succ fuel =>
      have hfull : ex (joinPath P (cs ++ [c])) = false := by
        have h := hex (cs ++ [c]).length (by simp) (le_refl _)
        rwa [List.take_length] at h
      have hrp : rpartitionSlash (joinPath P (cs ++ [c])) = (joinPath P cs, c) := by
        rw [joinPath_append_last]
        exact rpartitionSlash_append _ _ (hsl c (by simp))
      simp only [splitAugLoop, hfull, Bool.false_eq_true, if_false]
      rw [hrp]
      have hlen : cs.length < fuel := by
        simp only [List.length_append, List.length_singleton] at hfuel
        omega
      have hex' : ∀ j, 1 ≤ j → j ≤ cs.length → ex (joinPath P (cs.take j)) = false := by
        intro j h1 hj
        have h := hex j h1 (by simp; omega)
        rwa [List.take_append_of_le_length hj] at h
      have := ih (c :: acc) fuel hlen (fun d hd => hsl d (by simp [hd])) hex'
      rw [this]
      simp

/-- C1 counterexample: on a filesystem where both `/etc` and `/etc/a` exist,
with existing path P = `/etc` and relative suffix S = `a/b`, the claim
requires `_split_aug_path("/files" + P + "/" + S) = (P, S)`, but the
function stops at the longer existing prefix and returns `("/etc/a", "b")`. -/
theorem c1_counterexample :
    (fun s => s = "/etc" || s = "/etc/a") "/etc" = true ∧
    split_aug_path (fun s => s = "/etc" || s = "/etc/a") 10
        ("/files" ++ ("/etc" ++ "/" ++ "a/b")) = some ("/etc/a", "b") ∧
    some (("/etc/a" : String), ("b" : String)) ≠ some (("/etc" : String), ("a/b" : String)) := by
  refine ⟨rfl, by decide, by decide⟩

/-- C1 amended: the round-trip law holds under the extra condition the
counterexample forces: for an existing path P and a non-empty relative
suffix S (given by its slash-free components `cs`, `S = joinSlash cs`), if
no strictly longer prefix `P ++ "/" ++ joinSlash (cs.take j)` exists on the
filesystem, then `_split_aug_path("/files" + P + "/" + S) = (P, S)`
(with enough fuel for the loop to reach P). -/
theorem c1_round_trip (ex : String → Bool) (P : String) (cs : List String)
    (fuel : Nat) (hP : ex P = true) (hcs : cs ≠ [])
    (hsl : ∀ c ∈ cs, '/' ∉ c.data)
    (hnoext : ∀ j, 1 ≤ j → j ≤ cs.length → ex (P ++ "/" ++ joinSlash (cs.take j)) = false)
    (hfuel : cs.length < fuel) :
    split_aug_path ex fuel ("/files" ++ (P ++ "/" ++ joinSlash cs)) =
      some (P, joinSlash cs) := by
  unfold split_aug_path
  rw [strDrop_append_six _ _ (by rfl)]
  rw [← joinPath_joinSlash cs hcs P]
  have hex : ∀ j, 1 ≤ j → j ≤ cs.length → ex (joinPath P (cs.take j)) = false := by
    intro j h1 hj
    have hne : cs.take j ≠ [] := by
      cases cs with
      | nil => exact absurd rfl hcs
      | cons c cs' =>
        cases j with
        | zero => omega
        | succ j => simp
    rw [joinPath_joinSlash (cs.take j) hne P]
    exact hnoext j h1 hj
  rw [splitAugLoop_joinPath ex P hP cs [] fuel hfuel hsl hex]
  simp

theorem c1_round_trip_witness :
    split_aug_path (fun s => s = "/etc") 5
        ("/files" ++ ("/etc" ++ "/" ++ joinSlash ["a", "b"])) =
      some ("/etc", joinSlash ["a", "b"]) :=
  c1_round_trip (fun s => s = "/etc") "/etc" ["a", "b"] 5 (by decide) (by decide)
    (by decide)
    (fun j h1 h2 => by
      have h2' : j ≤ 2 := by simpa using h2
      interval_cases j <;> decide)
    (by decide)
